import Mathlib

/-!
Shallow embedding of the ripeness-advice route of nipponfruit-ai
(src/app/api/ripeness/route.ts, the variant that returns an `advice`
object, plus the `normalizeAi` helper of the sibling variant).

Dates are modelled as proleptic-Gregorian calendar dates; the JS
`Date`/`setDate` arithmetic used by `addDays` in the source is calendar
day-stepping, embedded here as iterated `nextDay`.
-/

namespace Nipponfruit

/-- A calendar date as year/month/day, mirroring the `YYYY-MM-DD` dates the
route works with. -/
structure CalDate where
  y : Nat
  m : Nat
  d : Nat
deriving DecidableEq, Repr

/-- Gregorian leap-year rule (what JS `Date` uses). -/
def isLeap (y : Nat) : Bool :=
  (y % 4 == 0 && y % 100 != 0) || y % 400 == 0

/-- Number of days in a month of a given year (Gregorian). -/
def daysInMonth (y m : Nat) : Nat :=
  if m == 2 then (if isLeap y then 29 else 28)
  else if m == 4 || m == 6 || m == 9 || m == 11 then 30
  else 31

/-- Validity of a calendar date: month in 1..12, day in 1..daysInMonth. -/
def CalDate.Valid (dt : CalDate) : Prop :=
  1 ≤ dt.m ∧ dt.m ≤ 12 ∧ 1 ≤ dt.d ∧ dt.d ≤ daysInMonth dt.y dt.m

instance (dt : CalDate) : Decidable dt.Valid := by
  unfold CalDate.Valid
  infer_instance

/-- The day after a given date (calendar successor). -/
def nextDay (dt : CalDate) : CalDate :=
  if dt.d < daysInMonth dt.y dt.m then ⟨dt.y, dt.m, dt.d + 1⟩
  else if dt.m < 12 then ⟨dt.y, dt.m + 1, 1⟩
  else ⟨dt.y + 1, 1, 1⟩

/-- `addDays` of the source: step the calendar forward `n` days.  In the
route every offset passed to the JS `addDays` is nonnegative, so a `Nat`
count is faithful. -/
def addDays (dt : CalDate) : Nat → CalDate
  | 0 => dt
  | n + 1 => nextDay (addDays dt n)

/-- Length of a year in days. -/
def yearDays (y : Nat) : Nat := if isLeap y then 366 else 365

/-- Days in all years strictly before year `y`. -/
def daysBeforeYear : Nat → Nat
  | 0 => 0
  | y + 1 => daysBeforeYear y + yearDays y

/-- Days in the months of year `y` strictly before month `m`. -/
def daysBeforeMonth (y : Nat) : Nat → Nat
  | 0 => 0
  | m + 1 => daysBeforeMonth y m + (if m = 0 then 0 else daysInMonth y m)

/-- Linear day ordinal of a date; orders dates chronologically. -/
def ord (dt : CalDate) : Nat :=
  daysBeforeYear dt.y + daysBeforeMonth dt.y dt.m + dt.d

lemma daysInMonth_pos (y m : Nat) : 1 ≤ daysInMonth y m := by
  unfold daysInMonth
  split
  · split <;> omega
  · split <;> omega

lemma daysBeforeMonth_succ (y m : Nat) (hm : 1 ≤ m) :
    daysBeforeMonth y (m + 1) = daysBeforeMonth y m + daysInMonth y m := by
  have : ¬ (m = 0) := by omega
  simp [daysBeforeMonth, this]

lemma year_total (y : Nat) :
    daysBeforeMonth y 12 + daysInMonth y 12 = yearDays y := by
  cases h : isLeap y <;>
    simp [daysBeforeMonth, daysInMonth, yearDays, h]

lemma nextDay_valid : ∀ (dt : CalDate), dt.Valid → (nextDay dt).Valid := by
  rintro ⟨y, m, d⟩ ⟨h1, h2, h3, h4⟩
  dsimp only [CalDate.Valid] at *
  unfold nextDay
  dsimp only
  split
  · show 1 ≤ m ∧ m ≤ 12 ∧ 1 ≤ d + 1 ∧ d + 1 ≤ daysInMonth y m
    exact ⟨h1, h2, by omega, by omega⟩
  · split
    · show 1 ≤ m + 1 ∧ m + 1 ≤ 12 ∧ 1 ≤ 1 ∧ 1 ≤ daysInMonth y (m + 1)
      exact ⟨by omega, by omega, le_refl 1, daysInMonth_pos _ _⟩
    · show 1 ≤ 1 ∧ 1 ≤ 12 ∧ 1 ≤ 1 ∧ 1 ≤ daysInMonth (y + 1) 1
      exact ⟨le_refl 1, by omega, le_refl 1, daysInMonth_pos _ _⟩

lemma ord_nextDay : ∀ (dt : CalDate), dt.Valid → ord (nextDay dt) = ord dt + 1 := by
  rintro ⟨y, m, d⟩ ⟨h1, h2, h3, h4⟩
  dsimp only [CalDate.Valid] at *
  unfold nextDay
  dsimp only
  split
  · show daysBeforeYear y + daysBeforeMonth y m + (d + 1)
        = daysBeforeYear y + daysBeforeMonth y m + d + 1
    omega
  · split
    · have hd : d = daysInMonth y m := by omega
      have hstep := daysBeforeMonth_succ y m h1
      show daysBeforeYear y + daysBeforeMonth y (m + 1) + 1
          = daysBeforeYear y + daysBeforeMonth y m + d + 1
      omega
    · have hm12 : m = 12 := by omega
      subst hm12
      have hd : d = daysInMonth y 12 := by omega
      have htot := year_total y
      have hbm : daysBeforeMonth (y + 1) 1 = 0 := rfl
      have hby : daysBeforeYear (y + 1) = daysBeforeYear y + yearDays y := rfl
      show daysBeforeYear (y + 1) + daysBeforeMonth (y + 1) 1 + 1
          = daysBeforeYear y + daysBeforeMonth y 12 + d + 1
      omega

lemma addDays_valid (dt : CalDate) (hv : dt.Valid) (n : Nat) :
    (addDays dt n).Valid := by
  induction n with
  | zero => exact hv
  | succ k ih => exact nextDay_valid _ ih

lemma ord_addDays (dt : CalDate) (hv : dt.Valid) (n : Nat) :
    ord (addDays dt n) = ord dt + n := by
  induction n with
  | zero => rfl
  | succ k ih =>
    have := ord_nextDay (addDays dt k) (addDays_valid dt hv k)
    simp [addDays, this, ih]
    omega

/-! ### ISO date strings -/

/-- Numeric value of a decimal digit character. -/
def digitVal (c : Char) : Nat := c.toNat - 48

/-- Parse a `YYYY-MM-DD` string into a calendar date, mirroring the
`/^\d{4}-\d{2}-\d{2}$/` regex test plus the `new Date(...)`/`isNaN`
validity check of the source's `normalizeDate`. -/
def parseIso (s : String) : Option CalDate :=
  match s.toList with
  | [y1, y2, y3, y4, s1, m1, m2, s2, d1, d2] =>
    if y1.isDigit && y2.isDigit && y3.isDigit && y4.isDigit &&
        (s1 = '-' : Bool) && m1.isDigit && m2.isDigit &&
        (s2 = '-' : Bool) && d1.isDigit && d2.isDigit then
      let y := digitVal y1 * 1000 + digitVal y2 * 100 + digitVal y3 * 10 + digitVal y4
      let m := digitVal m1 * 10 + digitVal m2
      let d := digitVal d1 * 10 + digitVal d2
      if 1 ≤ m ∧ m ≤ 12 ∧ 1 ≤ d ∧ d ≤ daysInMonth y m then some ⟨y, m, d⟩
      else none
    else none
  | _ => none

/-- The `s.replace(/\//g, "-")` step: a single-character global replace,
so a character map. -/
def slashToDash (s : String) : String :=
  String.mk (s.toList.map (fun c => if c = '/' then '-' else c))

/-- `normalizeDate` of the source: replace every `/` by `-`, require the
canonical `YYYY-MM-DD` shape and a real calendar date.  Returns the
canonical string together with the date that `new Date(receivedAt)`
re-parses from it later in the handler. -/
def normalizeDate (s : String) : Option (String × CalDate) :=
  let safe := slashToDash s
  match parseIso safe with
  | some dt => some (safe, dt)
  | none => none

/-- Two-digit zero padding. -/
def pad2 (n : Nat) : String := if n < 10 then "0" ++ toString n else toString n

/-- Four-digit zero padding (year field). -/
def pad4 (n : Nat) : String :=
  if n < 10 then "000" ++ toString n
  else if n < 100 then "00" ++ toString n
  else if n < 1000 then "0" ++ toString n
  else toString n

/-- Render a date as the `YYYY-MM-DD` string that
`toISOString().slice(0, 10)` produces. -/
def toIso (dt : CalDate) : String :=
  pad4 dt.y ++ "-" ++ pad2 dt.m ++ "-" ++ pad2 dt.d

/-! ### Runtime JSON values

The route manipulates the unvalidated result of `JSON.parse`, so the
embedding works with a JSON value type and JS-semantics helpers
(truthiness, property access, `??`). -/

inductive Json where
  | null : Json
  | bool : Bool → Json
  | num : Int → Json
  | str : String → Json
  | arr : List Json → Json
  | obj : List (String × Json) → Json
deriving Repr, BEq

/-- JS truthiness of a JSON value. -/
def jsTruthy : Json → Bool
  | Json.null => false
  | Json.bool b => b
  | Json.num n => n != 0
  | Json.str s => !s.isEmpty
  | Json.arr _ => true
  | Json.obj _ => true

/-- JS property access `v.k`: `none` plays the role of `undefined`.
With duplicate keys the last one wins, as in `JSON.parse`. -/
def getField (v : Json) (k : String) : Option Json :=
  match v with
  | Json.obj fs => fs.foldl (fun acc kv => if kv.1 = k then some kv.2 else acc) none
  | _ => none

/-- Truthiness of `p?.k` (the `parsed?.summaryMd` guard). -/
def truthyField (p : Option Json) (k : String) : Bool :=
  match p with
  | none => false
  | some v =>
    match getField v k with
    | none => false
    | some j => jsTruthy j

/-- `v.k ?? dflt`: field access with nullish coalescing. -/
def nullishGet (v : Json) (k : String) (dflt : Json) : Json :=
  match getField v k with
  | some Json.null => dflt
  | some j => j
  | none => dflt

/-! ### A model of the JS builtin `JSON.parse`

The route calls `JSON.parse` (a platform builtin, not repository code) and
then works with the untyped result.  The model below covers objects,
arrays, strings with the standard escapes, integer numbers and the three
keyword literals; non-integer numeric literals make the parse fail, which
only makes the model's tier-1/tier-2 acceptance more conservative and is
never relied on by a theorem. -/

/-- Skip JSON whitespace. -/
def skipWs : List Char → List Char
  | [] => []
  | c :: cs => if c = ' ' ∨ c = '\t' ∨ c = '\n' ∨ c = '\r' then skipWs cs else c :: cs

/-- Value of a hexadecimal digit. -/
def hexVal (c : Char) : Option Nat :=
  if c.isDigit then some (c.toNat - 48)
  else if 'a' ≤ c ∧ c ≤ 'f' then some (c.toNat - 87)
  else if 'A' ≤ c ∧ c ≤ 'F' then some (c.toNat - 55)
  else none

/-- Single-character escapes of JSON strings. -/
def escChar (c : Char) : Option Char :=
  if c = '"' then some '"'
  else if c = '\\' then some '\\'
  else if c = '/' then some '/'
  else if c = 'n' then some '\n'
  else if c = 't' then some '\t'
  else if c = 'r' then some '\r'
  else if c = 'b' then some (Char.ofNat 8)
  else if c = 'f' then some (Char.ofNat 12)
  else none

/-- Body of a JSON string literal, after the opening quote; returns the
decoded characters and the remainder after the closing quote. -/
def parseStrBody : List Char → Option (List Char × List Char)
  | [] => none
  | c :: cs =>
    if c = '"' then some ([], cs)
    else if c = '\\' then
      match cs with
      | [] => none
      | e :: cs2 =>
        if e = 'u' then
          match cs2 with
          | a :: b :: c2 :: d :: cs3 =>
            match hexVal a, hexVal b, hexVal c2, hexVal d with
            | some ha, some hb, some hc, some hd =>
              (parseStrBody cs3).map
                (fun pr => (Char.ofNat (ha * 4096 + hb * 256 + hc * 16 + hd) :: pr.1, pr.2))
            | _, _, _, _ => none
          | _ => none
        else
          match escChar e with
          | some ch => (parseStrBody cs2).map (fun pr => (ch :: pr.1, pr.2))
          | none => none
    else (parseStrBody cs).map (fun pr => (c :: pr.1, pr.2))

/-- Longest digit run at the front. -/
def takeDigits : List Char → List Char × List Char
  | [] => ([], [])
  | c :: cs =>
    if c.isDigit then
      let pr := takeDigits cs
      (c :: pr.1, pr.2)
    else ([], c :: cs)

/-- Decimal value of a digit run. -/
def digitsToNat (ds : List Char) : Nat :=
  ds.foldl (fun acc c => acc * 10 + digitVal c) 0

/-- An integer literal: digits, not followed by a fraction or exponent
(those fail the parse in this model). -/
def parseIntLit (cs : List Char) : Option (Nat × List Char) :=
  match takeDigits cs with
  | ([], _) => none
  | (ds, rest) =>
    match rest with
    | [] => some (digitsToNat ds, [])
    | c :: _ =>
      if c = '.' ∨ c = 'e' ∨ c = 'E' then none
      else some (digitsToNat ds, rest)

mutual

/-- One JSON value by recursive descent; the fuel bounds nesting. -/
def parseVal : Nat → List Char → Option (Json × List Char)
  | 0, _ => none
  | fuel + 1, cs =>
    match skipWs cs with
    | [] => none
    | c :: cs1 =>
      if c = Char.ofNat 123 then
        match skipWs cs1 with
        | c2 :: cs2 =>
          if c2 = Char.ofNat 125 then some (Json.obj [], cs2)
          else
            match parseMembers fuel cs1 with
            | some (fs, rest) => some (Json.obj fs, rest)
            | none => none
        | [] => none
      else if c = '[' then
        match skipWs cs1 with
        | c2 :: cs2 =>
          if c2 = ']' then some (Json.arr [], cs2)
          else
            match parseElems fuel cs1 with
            | some (xs, rest) => some (Json.arr xs, rest)
            | none => none
        | [] => none
      else if c = '"' then
        match parseStrBody cs1 with
        | some (body, rest) => some (Json.str (String.mk body), rest)
        | none => none
      else if c = 't' then
        match cs1 with
        | 'r' :: 'u' :: 'e' :: rest => some (Json.bool true, rest)
        | _ => none
      else if c = 'f' then
        match cs1 with
        | 'a' :: 'l' :: 's' :: 'e' :: rest => some (Json.bool false, rest)
        | _ => none
      else if c = 'n' then
        match cs1 with
        | 'u' :: 'l' :: 'l' :: rest => some (Json.null, rest)
        | _ => none
      else if c = '-' then
        match parseIntLit cs1 with
        | some (n, rest) => some (Json.num (-(n : Int)), rest)
        | none => none
      else if c.isDigit then
        match parseIntLit (c :: cs1) with
        | some (n, rest) => some (Json.num (n : Int), rest)
        | none => none
      else none

/-- Members of a JSON object, after the opening brace. -/
def parseMembers : Nat → List Char → Option (List (String × Json) × List Char)
  | 0, _ => none
  | fuel + 1, cs =>
    match skipWs cs with
    | '"' :: cs1 =>
      match parseStrBody cs1 with
      | some (kcs, cs2) =>
        match skipWs cs2 with
        | ':' :: cs3 =>
          match parseVal fuel cs3 with
          | some (v, cs4) =>
            match skipWs cs4 with
            | ',' :: cs5 =>
              match parseMembers fuel cs5 with
              | some (fs, rest) => some ((String.mk kcs, v) :: fs, rest)
              | none => none
            | c :: cs5 =>
              if c = Char.ofNat 125 then some ([(String.mk kcs, v)], cs5) else none
            | [] => none
          | none => none
        | _ => none
      | none => none
    | _ => none

/-- Elements of a JSON array, after the opening bracket. -/
def parseElems : Nat → List Char → Option (List Json × List Char)
  | 0, _ => none
  | fuel + 1, cs =>
    match parseVal fuel cs with
    | some (v, cs1) =>
      match skipWs cs1 with
      | ',' :: cs2 =>
        match parseElems fuel cs2 with
        | some (xs, rest) => some (v :: xs, rest)
        | none => none
      | ']' :: cs2 => some ([v], cs2)
      | _ => none
    | none => none

end

/-- `JSON.parse`: `none` where the builtin throws. -/
def jsonParse (s : String) : Option Json :=
  match parseVal (s.length + 1) s.toList with
  | some (v, rest) => if skipWs rest = [] then some v else none
  | none => none

/-! ### JS string methods used by the route -/

/-- `String.prototype.trim`: strip leading and trailing whitespace. -/
def trimStr (s : String) : String :=
  String.mk (((s.toList.dropWhile Char.isWhitespace).reverse.dropWhile
    Char.isWhitespace).reverse)

/-- `raw.startsWith(c)` for the one-character prefix the route tests. -/
def startsWithChar (s : String) (c : Char) : Bool :=
  match s.toList with
  | [] => false
  | c0 :: _ => c0 = c

/-- The backtick character. -/
def btick : Char := Char.ofNat 96

/-- Does the list start with three backticks? -/
def isFence : List Char → Bool
  | a :: b :: c :: _ => a = btick && b = btick && c = btick
  | _ => false

/-- Earliest closing fence: the characters before the first three-backtick
run, and the remainder after it. -/
def findClose : List Char → Option (List Char × List Char)
  | [] => none
  | c :: cs =>
    if isFence (c :: cs) then some ([], cs.drop 2)
    else (findClose cs).map (fun pr => (c :: pr.1, pr.2))

/-- If the list starts with a case-insensitive ```` ```json ```` tag,
return the remainder. -/
def fencedTag : List Char → Option (List Char)
  | a :: b :: c :: j :: s :: o :: n :: rest =>
    if a = btick && b = btick && c = btick &&
        j.toLower = 'j' && s.toLower = 's' && o.toLower = 'o' && n.toLower = 'n' then
      some rest
    else none
  | _ => none

/-- The capture of ``raw.match(/```json\s*([\s\S]*?)```/i)``: leftmost
start position whose tag is followed (after whitespace) by a closing
fence; the capture is the text between. -/
def scanTagged : List Char → Option (List Char)
  | [] => none
  | c :: cs =>
    match fencedTag (c :: cs) with
    | some rest =>
      match findClose (rest.dropWhile Char.isWhitespace) with
      | some (cap, _) => some cap
      | none => scanTagged cs
    | none => scanTagged cs

/-- The capture of ``raw.match(/```\s*([\s\S]*?)```/)``. -/
def scanPlain : List Char → Option (List Char)
  | [] => none
  | c :: cs =>
    if isFence (c :: cs) then
      match findClose ((cs.drop 2).dropWhile Char.isWhitespace) with
      | some (cap, _) => some cap
      | none => scanPlain cs
    else scanPlain cs

/-- The `raw.match(...) || raw.match(...)` chain of the route, reduced to
the capture group `m[1]`. -/
def fencedCapture (s : String) : Option String :=
  match scanTagged s.toList with
  | some cap => some (String.mk cap)
  | none => (scanPlain s.toList).map String.mk

/-! ### The ripeness route -/

/-- An entry of `fruit_rules.json` as typed in the route.  The two
ripening day counts are optional in the source (`ripen_room_days?`,
`ripen_cool_days?`). -/
structure FruitRule where
  sku : String
  name : String
  category : String
  ripen_room_days : Option Int
  ripen_cool_days : Option Int
  temp_advice : String
  ready_signs : List String
  donts : List String
deriving Repr

/-- The request payload as the handler actually receives it: the
TypeScript `as Payload` cast is erased at runtime, so storage and climate
arrive as arbitrary strings. -/
structure Payload where
  sku : String
  receivedAt : String
  storage : String
  climate : String
  issues : List String
deriving Repr

/-- The climate delta of `calcDays`: hot subtracts one day, cold adds
one, anything else adds zero. -/
def climateDelta (climate : String) : Int :=
  if climate = "hot" then -1 else if climate = "cold" then 1 else 0

/-- The base day count of `calcDays`: the room bucket for
`room`/`cooldark` and the cool bucket otherwise, a missing count
defaulting to 0 (`?? 0`). -/
def ripenBase (rule : FruitRule) (storage : String) : Int :=
  if storage = "room" ∨ storage = "cooldark" then rule.ripen_room_days.getD 0
  else rule.ripen_cool_days.getD 0

/-- `calcDays` of the source: base bucket plus climate delta, clamped at
zero. -/
def calcDays (rule : FruitRule) (storage climate : String) : Int :=
  max 0 (ripenBase rule storage + climateDelta climate)

/-- `calcWindowDays` of the source. -/
def calcWindowDays (baseDays : Int) : Int × Int :=
  (max 0 (baseDays - 1), baseDays + 1)

/-- The advice value the route builds.  Fields hold raw JSON values
because the route copies whatever `JSON.parse` produced without shape
checks. -/
structure AdviceVal where
  summaryMd : Json
  smartTips : Json
  risks : Json
  uses : Json
  ripenessWindow : Json
deriving Repr

/-- The initial advice of the handler: blank summary, empty lists, and
the computed fallback window. -/
def initialAdvice (windowStart windowEnd : String) : AdviceVal :=
  { summaryMd := Json.str ""
    smartTips := Json.arr []
    risks := Json.arr []
    uses := Json.arr []
    ripenessWindow :=
      Json.obj [("start", Json.str windowStart), ("end", Json.str windowEnd)] }

/-- The two decode tiers over `raw`, mirroring the mutation of `parsed`:
tier 1 runs when `raw` starts with an opening brace; tier 2 retries on a
fenced block when `parsed` is still falsy and the capture is non-empty. -/
def tierParsed (raw : String) : Option Json :=
  let p1 := if startsWithChar raw (Char.ofNat 123) then jsonParse raw else none
  if (match p1 with | some v => jsTruthy v | none => false) then p1
  else
    match fencedCapture raw with
    | some inner =>
      if inner.isEmpty then p1
      else
        match jsonParse inner with
        | some v => some v
        | none => p1
    | none => p1

/-- Lines 287-308 of the route: decode `raw`, accept when
`parsed?.summaryMd` is truthy, otherwise keep the prose (or nothing). -/
def buildAdvice (advice0 : AdviceVal) (raw : String) (fallbackWindow : Json) :
    AdviceVal :=
  if truthyField (tierParsed raw) "summaryMd" then
    match tierParsed raw with
    | some v =>
      { summaryMd := (getField v "summaryMd").getD Json.null
        smartTips := nullishGet v "smartTips" (Json.arr [])
        risks := nullishGet v "risks" (Json.arr [])
        uses := nullishGet v "uses" (Json.arr [])
        ripenessWindow := nullishGet v "ripenessWindow" fallbackWindow }
    | none => advice0
  else if !raw.isEmpty then { advice0 with summaryMd := Json.str raw }
  else advice0

/-- Outcome of the OpenAI call inside the advisory `try`: either the call
throws (network error, timeout, quota, …) or it returns a completion
whose `content` may be absent. -/
inductive GatewayOutcome where
  | failure : GatewayOutcome
  | success : Option String → GatewayOutcome

/-- The whole advisory stage: on a thrown error the `catch` keeps the
initial advice; on success the raw text is
`content?.trim() || ""` and the tiered decode runs. -/
def advisoryResult (advice0 : AdviceVal) (fallbackWindow : Json)
    (g : GatewayOutcome) : AdviceVal :=
  match g with
  | GatewayOutcome.failure => advice0
  | GatewayOutcome.success content =>
    let raw := (content.map trimStr).getD ""
    buildAdvice advice0 raw fallbackWindow

/-- `rules.find((r) => r.sku === body.sku)`. -/
def findRule (rules : List FruitRule) (sku : String) : Option FruitRule :=
  rules.find? (fun r => r.sku == sku)

/-- The deterministic baseline summary string. -/
def baseSummaryStr (rule : FruitRule) (readyDate : String) : String :=
  "目安の食べ頃: " ++ readyDate ++ "\n" ++
  "保存: " ++ rule.temp_advice ++ "\n" ++
  "よくあるNG: " ++ String.intercalate ("、") rule.donts ++ "\n" ++
  "食べ頃のサイン: " ++ String.intercalate ("、") rule.ready_signs

/-- The response body of the 200 branch. -/
structure RespBody where
  sku : String
  name : String
  readyDate : String
  baseSummary : String
  advice : AdviceVal
  summary : String
deriving Repr

/-- The handler's response: 200 with a body, or a 400 client error. -/
inductive ApiResponse where
  | ok : RespBody → ApiResponse
  | clientError : String → ApiResponse
deriving Repr

def ApiResponse.isOk : ApiResponse → Bool
  | ApiResponse.ok _ => true
  | ApiResponse.clientError _ => false

def ApiResponse.body? : ApiResponse → Option RespBody
  | ApiResponse.ok b => some b
  | ApiResponse.clientError _ => none

def ApiResponse.readyDate? : ApiResponse → Option String :=
  fun r => (r.body?).map RespBody.readyDate

def ApiResponse.adviceVal? : ApiResponse → Option AdviceVal :=
  fun r => (r.body?).map RespBody.advice

/-- The date-format client error message of the route. -/
def dateErrorMsg : String := "受取日が正しい形式（YYYY-MM-DD）ではありません。"

/-- `readyDate` of the handler for a resolved rule and intake date. -/
def readyDateOf (rule : FruitRule) (body : Payload) (recDate : CalDate) : String :=
  toIso (addDays recDate (calcDays rule body.storage body.climate).toNat)

/-- `windowStart` of the handler. -/
def windowStartOf (rule : FruitRule) (body : Payload) (recDate : CalDate) : String :=
  toIso (addDays recDate
    (calcWindowDays (calcDays rule body.storage body.climate)).1.toNat)

/-- `windowEnd` of the handler. -/
def windowEndOf (rule : FruitRule) (body : Payload) (recDate : CalDate) : String :=
  toIso (addDays recDate
    (calcWindowDays (calcDays rule body.storage body.climate)).2.toNat)

/-- The fallback window object of the handler. -/
def fallbackWindowOf (rule : FruitRule) (body : Payload) (recDate : CalDate) : Json :=
  Json.obj [("start", Json.str (windowStartOf rule body recDate)),
            ("end", Json.str (windowEndOf rule body recDate))]

/-- The 200 body the handler assembles for a resolved rule. -/
def okBodyOf (rule : FruitRule) (body : Payload) (recDate : CalDate)
    (g : GatewayOutcome) : RespBody :=
  { sku := rule.sku
    name := rule.name
    readyDate := readyDateOf rule body recDate
    baseSummary := baseSummaryStr rule (readyDateOf rule body recDate)
    advice := advisoryResult
      (initialAdvice (windowStartOf rule body recDate) (windowEndOf rule body recDate))
      (fallbackWindowOf rule body recDate) g
    summary := baseSummaryStr rule (readyDateOf rule body recDate) }

/-- The POST handler (lines 214-325 of the route), parameterised by the
loaded rule list and by the outcome of the external OpenAI call.  The
final `NextResponse.json({...})` carries no explicit status, hence 200. -/
def POST (rules : List FruitRule) (body : Payload) (g : GatewayOutcome) :
    ApiResponse :=
  match normalizeDate body.receivedAt with
  | none => ApiResponse.clientError dateErrorMsg
  | some (_, recDate) =>
    match findRule rules body.sku with
    | none => ApiResponse.clientError ("unknown sku")
    | some rule => ApiResponse.ok (okBodyOf rule body recDate g)

/-! ### `normalizeAi` of the sibling route variant (lines 11-38) -/

mutual

/-- JS `String(x)` on a JSON value; arrays join their stringified
elements with commas. -/
def jsToString : Json → String
  | Json.null => "null"
  | Json.bool b => if b then "true" else "false"
  | Json.num n => toString n
  | Json.str s => s
  | Json.obj _ => "[object Object]"
  | Json.arr xs => String.intercalate (",") (jsArrParts xs)

/-- Array elements under `Array.prototype.join`: `null` renders empty. -/
def jsArrParts : List Json → List String
  | [] => []
  | Json.null :: xs => "" :: jsArrParts xs
  | x :: xs => jsToString x :: jsArrParts xs

end

/-- `toTextArray`: wrap a non-array, drop falsy entries, stringify, trim,
drop blanks, keep at most five. -/
def toTextArray (v : Json) : List String :=
  let items := match v with | Json.arr xs => xs | j => [j]
  ((((items.filter jsTruthy).map jsToString).map trimStr).filter
    (fun s => !s.isEmpty)).take 5

/-- A `raw.a ?? raw.b ?? … ?? []` alias chain. -/
def chainGet (v : Json) : List String → Json
  | [] => Json.arr []
  | k :: rest =>
    match getField v k with
    | some Json.null => chainGet v rest
    | some j => j
    | none => chainGet v rest

/-- The three lists `normalizeAi` produces. -/
structure AiLists where
  tips : List String
  risks : List String
  ideas : List String
deriving Repr

/-- Truthy and of JS type `"object"` (arrays included). -/
def isObjectLike : Json → Bool
  | Json.obj _ => true
  | Json.arr _ => true
  | _ => false

/-- The default tip inserted when all three lists come out empty. -/
def defaultTip : String :=
  "ヘタ部分を下にして野菜室で保存。数日に一度、状態を点検しましょう。"

/-- `normalizeAi`: absorb alias keys, normalize the three lists, and keep
at least one entry overall. -/
def normalizeAi (raw : Json) : AiLists :=
  if !isObjectLike raw then ⟨[], [], []⟩
  else
    let tips := toTextArray (chainGet raw ["tips", "practicalTips", "suggestions", "tip"])
    let risks := toTextArray (chainGet raw ["risks", "risk"])
    let ideas := toTextArray (chainGet raw ["ideas", "uses", "idea"])
    if tips.length + risks.length + ideas.length = 0 then
      ⟨[defaultTip], risks, ideas⟩
    else ⟨tips, risks, ideas⟩

/-! ### Concrete fixtures used by witnesses and counterexamples -/

/-- The rule of spec Scenarios A/B: room-days 5, cool-days 3. -/
def demoRule : FruitRule :=
  { sku := "demo-fruit", name := "デモ", category := "fruit",
    ripen_room_days := some 5, ripen_cool_days := some 3,
    temp_advice := "冷暗所", ready_signs := ["香り"], donts := ["直射日光"] }

/-- A rule with both day counts absent. -/
def bareRule : FruitRule :=
  { sku := "bare", name := "素朴", category := "fruit",
    ripen_room_days := none, ripen_cool_days := none,
    temp_advice := "常温", ready_signs := [], donts := [] }

def demoRules : List FruitRule := [demoRule, bareRule]

/-- Scenario A request: room storage, normal climate, intake 2024-01-01. -/
def demoPayload : Payload :=
  { sku := "demo-fruit", receivedAt := "2024-01-01", storage := "room",
    climate := "normal", issues := [] }

/-- Scenario B request: refrigerator storage, hot climate. -/
def fridgeHotPayload : Payload :=
  { demoPayload with storage := "fridge", climate := "hot" }

/-- A storage value outside the enumeration. -/
def bananaStoragePayload : Payload :=
  { demoPayload with storage := "banana" }

/-- A gateway reply that decodes but has wrong-shaped fields. -/
def rawWrongShape : String := "\x7b\"summaryMd\":42,\"smartTips\":7\x7d"

/-- A gateway reply whose window override is not an object. -/
def rawNumWindow : String := "\x7b\"summaryMd\":\"s\",\"ripenessWindow\":7\x7d"

/-- A gateway reply with seven tips, one of them blank. -/
def rawSevenTips : String :=
  "\x7b\"summaryMd\":\"s\",\"smartTips\":[\"a\",\"b\",\"c\",\"d\",\"e\",\"f\",\" \"]\x7d"

/-- A request with an unparseable intake date. -/
def badDatePayload : Payload := { demoPayload with receivedAt := "not-a-date" }

/-- The decoded value of `rawWrongShape`. -/
def parsedWrongShape : Json :=
  Json.obj [("summaryMd", Json.num 42), ("smartTips", Json.num 7)]

/-- The decoded value of `rawNumWindow`. -/
def parsedNumWindow : Json :=
  Json.obj [("summaryMd", Json.str "s"), ("ripenessWindow", Json.num 7)]

/-- The decoded value of `rawSevenTips`. -/
def parsedSevenTips : Json :=
  Json.obj [("summaryMd", Json.str "s"),
    ("smartTips", Json.arr [Json.str "a", Json.str "b", Json.str "c",
      Json.str "d", Json.str "e", Json.str "f", Json.str " "])]

/-- A candidate for `normalizeAi` with seven tips, one blank. -/
def sevenTipsObj : Json :=
  Json.obj [("tips", Json.arr [Json.str "a", Json.str "b", Json.str "c",
    Json.str "d", Json.str "e", Json.str "f", Json.str " "])]

/-- A gateway reply that is plain prose. -/
def proseRaw : String := "just prose"

/-! ### Support lemmas -/

lemma calcDays_nonneg (rule : FruitRule) (storage climate : String) :
    0 ≤ calcDays rule storage climate :=
  le_max_left _ _

lemma parseIso_valid (s : String) (dt : CalDate) (h : parseIso s = some dt) :
    dt.Valid := by
  unfold parseIso at h
  split at h
  · split at h
    · dsimp only at h
      split at h
      · rename_i hcond
        cases h
        exact hcond
      · exact absurd h (by simp)
    · exact absurd h (by simp)
  · exact absurd h (by simp)

lemma normalizeDate_valid (s safe : String) (dt : CalDate)
    (h : normalizeDate s = some (safe, dt)) : dt.Valid := by
  unfold normalizeDate at h
  dsimp only at h
  split at h
  · cases h
    exact parseIso_valid _ _ (by assumption)
  · exact absurd h (by simp)

lemma POST_ok (rules : List FruitRule) (body : Payload) (g : GatewayOutcome)
    (safe : String) (recDate : CalDate) (rule : FruitRule)
    (hdate : normalizeDate body.receivedAt = some (safe, recDate))
    (hrule : findRule rules body.sku = some rule) :
    POST rules body g = ApiResponse.ok (okBodyOf rule body recDate g) := by
  unfold POST
  rw [hdate, hrule]

lemma skipWs_brace (cs : List Char) : skipWs (Char.ofNat 123 :: cs) = Char.ofNat 123 :: cs := by
  unfold skipWs
  rw [if_neg]
  rintro (h | h | h | h) <;> exact absurd h (by decide)

/-- A value parsed from text whose first significant character is an
opening brace is an object. -/
lemma parseVal_brace (n : Nat) (cs cs1 : List Char) (v : Json) (rest : List Char)
    (hskip : skipWs cs = Char.ofNat 123 :: cs1)
    (h : parseVal n cs = some (v, rest)) : ∃ fs, v = Json.obj fs := by
  cases n with
  | zero => exact absurd h (by simp [parseVal])
  | succ k =>
    unfold parseVal at h
    rw [hskip] at h
    dsimp only at h
    rw [if_pos rfl] at h
    split at h
    · split at h
      · cases h
        exact ⟨[], rfl⟩
      · split at h
        · cases h
          exact ⟨_, rfl⟩
        · exact absurd h (by simp)
    · exact absurd h (by simp)

lemma jsonParse_brace (s : String) (v : Json)
    (hs : startsWithChar s (Char.ofNat 123) = true)
    (hp : jsonParse s = some v) : ∃ fs, v = Json.obj fs := by
  unfold startsWithChar at hs
  unfold jsonParse at hp
  split at hp
  · rename_i w rest hw
    split at hp
    · cases hp
      cases hlist : s.toList with
      | nil => rw [hlist] at hs; exact absurd hs (by simp)
      | cons c0 cs0 =>
        rw [hlist] at hs
        simp at hs
        rw [hlist, hs] at hw
        exact parseVal_brace _ _ _ _ _ (skipWs_brace cs0) hw
    · exact absurd hp (by simp)
  · exact absurd hp (by simp)

/-- Tier 1 of the decode: text that starts with a brace and decodes
stays the decoded value (tier 2 never overrides it). -/
lemma tierParsed_of_brace (raw : String) (v : Json)
    (hs : startsWithChar raw (Char.ofNat 123) = true)
    (hp : jsonParse raw = some v) : tierParsed raw = some v := by
  obtain ⟨fs, rfl⟩ := jsonParse_brace raw v hs hp
  unfold tierParsed
  simp [hs, hp, jsTruthy]

/-- Acceptance branch of the advice construction: a decoded candidate
with a truthy `summaryMd` is copied field by field, shapes unchecked. -/
lemma buildAdvice_accept (a0 : AdviceVal) (raw : String) (fw : Json) (v j : Json)
    (ht : tierParsed raw = some v) (hf : getField v "summaryMd" = some j)
    (hj : jsTruthy j = true) :
    buildAdvice a0 raw fw =
      { summaryMd := j
        smartTips := nullishGet v "smartTips" (Json.arr [])
        risks := nullishGet v "risks" (Json.arr [])
        uses := nullishGet v "uses" (Json.arr [])
        ripenessWindow := nullishGet v "ripenessWindow" fw } := by
  have htr : truthyField (some v) ("summaryMd") = true := by
    unfold truthyField
    dsimp only
    rw [hf]
    exact hj
  unfold buildAdvice
  rw [ht, htr]
  simp [hf]

/-- Rejection branch: when `parsed?.summaryMd` is falsy and the raw text
is non-empty, only the summary is replaced with the prose. -/
lemma buildAdvice_prose (a0 : AdviceVal) (raw : String) (fw : Json)
    (ht : truthyField (tierParsed raw) ("summaryMd") = false)
    (hne : raw.isEmpty = false) :
    buildAdvice a0 raw fw = { a0 with summaryMd := Json.str raw } := by
  unfold buildAdvice
  rw [ht, hne]
  simp

/-- Rejection branch with empty raw text: the advice is untouched. -/
lemma buildAdvice_empty (a0 : AdviceVal) (raw : String) (fw : Json)
    (ht : truthyField (tierParsed raw) ("summaryMd") = false)
    (he : raw.isEmpty = true) :
    buildAdvice a0 raw fw = a0 := by
  unfold buildAdvice
  rw [ht, he]
  simp

lemma toTextArray_len (v : Json) : (toTextArray v).length ≤ 5 := by
  unfold toTextArray
  dsimp only
  rw [List.length_take]
  exact min_le_left _ _

lemma toTextArray_nonblank (v : Json) :
    (toTextArray v).all (fun s => !s.isEmpty) = true := by
  unfold toTextArray
  dsimp only
  rw [List.all_eq_true]
  intro s hs
  have hmem := List.mem_of_mem_take hs
  exact (List.mem_filter.mp hmem).2

lemma normalizeAi_bounds (j : Json) :
    (normalizeAi j).tips.length ≤ 5 ∧ (normalizeAi j).risks.length ≤ 5 ∧
    (normalizeAi j).ideas.length ≤ 5 ∧
    (normalizeAi j).tips.all (fun s => !s.isEmpty) = true ∧
    (normalizeAi j).risks.all (fun s => !s.isEmpty) = true ∧
    (normalizeAi j).ideas.all (fun s => !s.isEmpty) = true := by
  unfold normalizeAi
  split
  · simp
  · dsimp only
    split
    · refine ⟨by simp, toTextArray_len _, toTextArray_len _, ?_,
        toTextArray_nonblank _, toTextArray_nonblank _⟩
      simp only [List.all_cons, List.all_nil, Bool.and_true]
      decide
    · exact ⟨toTextArray_len _, toTextArray_len _, toTextArray_len _,
        toTextArray_nonblank _, toTextArray_nonblank _, toTextArray_nonblank _⟩

/-- A truthy `summaryMd` access yields the field value and its
truthiness. -/
lemma truthyField_elim (v : Json) (k : String)
    (ht : truthyField (some v) k = true) :
    ∃ j, getField v k = some j ∧ jsTruthy j = true := by
  unfold truthyField at ht
  dsimp only at ht
  cases hget : getField v k with
  | none => rw [hget] at ht; exact absurd ht (by simp)
  | some j =>
    rw [hget] at ht
    exact ⟨j, rfl, ht⟩

/-! ### Claims -/

/-- C1, counterexample: for a valid request whose gateway call throws,
the final 200 result's advice summary is exactly the empty string, so
"the returned Advice summary is never the empty string" fails and no
templated summary is synthesized. -/
theorem C1_counterexample :
    ((POST demoRules demoPayload GatewayOutcome.failure).adviceVal?).map
      AdviceVal.summaryMd = some (Json.str "") := rfl

/-- C1, amended: when the gateway call fails (throw/timeout) or returns
absent or blank text, the final advice is exactly the initial value —
an empty-string summary, empty lists, and the fallback window carrying
the computed start and end dates.  No templated summary referencing the
window is synthesized; the summary stays blank. -/
theorem C1_failure_keeps_blank_summary (rules : List FruitRule)
    (body : Payload) (g : GatewayOutcome) (safe : String) (recDate : CalDate)
    (rule : FruitRule)
    (hdate : normalizeDate body.receivedAt = some (safe, recDate))
    (hrule : findRule rules body.sku = some rule)
    (hg : g = GatewayOutcome.failure ∨
      ∃ content, g = GatewayOutcome.success content ∧
        ((content.map trimStr).getD "").isEmpty = true) :
    (POST rules body g).adviceVal? =
      some (initialAdvice (windowStartOf rule body recDate)
        (windowEndOf rule body recDate)) := by
  rw [POST_ok rules body g safe recDate rule hdate hrule]
  rcases hg with rfl | ⟨content, rfl, hblank⟩
  · rfl
  · have hraw : (content.map trimStr).getD "" = "" :=
      (String.isEmpty_iff _).mp hblank
    show some (advisoryResult _ _ (GatewayOutcome.success content)) = _
    unfold advisoryResult
    dsimp only
    rw [hraw]
    rfl

/-- C1, witness for the amended theorem. -/
theorem C1_witness :
    normalizeDate demoPayload.receivedAt = some ("2024-01-01", ⟨2024, 1, 1⟩) ∧
    findRule demoRules demoPayload.sku = some demoRule ∧
    (POST demoRules demoPayload GatewayOutcome.failure).adviceVal? =
      some (initialAdvice (windowStartOf demoRule demoPayload ⟨2024, 1, 1⟩)
        (windowEndOf demoRule demoPayload ⟨2024, 1, 1⟩)) :=
  ⟨rfl, rfl,
    C1_failure_keeps_blank_summary demoRules demoPayload GatewayOutcome.failure
      ("2024-01-01") ⟨2024, 1, 1⟩ demoRule rfl rfl (Or.inl rfl)⟩

/-- C2: once the intake date validates and the sku resolves, every
gateway outcome — a thrown error/timeout, missing content, or any
returned text whatsoever — yields a 200 response carrying the
rule-derived `readyDate`, the rule-derived `baseSummary`, and an advice
object; no advisory failure becomes an error response. -/
theorem C2_advisory_never_fails (rules : List FruitRule) (body : Payload)
    (g : GatewayOutcome) (safe : String) (recDate : CalDate) (rule : FruitRule)
    (hdate : normalizeDate body.receivedAt = some (safe, recDate))
    (hrule : findRule rules body.sku = some rule) :
    (POST rules body g).isOk = true ∧
    (POST rules body g).readyDate? = some (readyDateOf rule body recDate) ∧
    ((POST rules body g).body?).map RespBody.baseSummary
      = some (baseSummaryStr rule (readyDateOf rule body recDate)) ∧
    ((POST rules body g).adviceVal?).isSome = true := by
  rw [POST_ok rules body g safe recDate rule hdate hrule]
  exact ⟨rfl, rfl, rfl, rfl⟩

/-- C2, witness: a concrete valid request under a failing gateway. -/
theorem C2_witness :
    normalizeDate demoPayload.receivedAt = some ("2024-01-01", ⟨2024, 1, 1⟩) ∧
    findRule demoRules demoPayload.sku = some demoRule ∧
    ((POST demoRules demoPayload GatewayOutcome.failure).isOk = true ∧
     (POST demoRules demoPayload GatewayOutcome.failure).readyDate?
       = some (readyDateOf demoRule demoPayload ⟨2024, 1, 1⟩) ∧
     ((POST demoRules demoPayload GatewayOutcome.failure).body?).map
       RespBody.baseSummary
       = some (baseSummaryStr demoRule (readyDateOf demoRule demoPayload ⟨2024, 1, 1⟩)) ∧
     ((POST demoRules demoPayload GatewayOutcome.failure).adviceVal?).isSome = true) :=
  ⟨rfl, rfl,
    C2_advisory_never_fails demoRules demoPayload GatewayOutcome.failure
      ("2024-01-01") ⟨2024, 1, 1⟩ demoRule rfl rfl⟩

/-- C3: for the enumerated storage and climate values, the day count is
`max 0 (base + delta)` with the room-temperature bucket for
room/cool-dark and the cool-storage bucket for
vegetable-drawer/refrigerator, and delta −1 for hot, +1 for cold, 0 for
normal; and the count is nonnegative. -/
theorem C3_calcDays_formula (rule : FruitRule) (storage climate : String)
    (hs : storage = "room" ∨ storage = "cooldark" ∨ storage = "vegroom" ∨
      storage = "fridge")
    (hc : climate = "cold" ∨ climate = "normal" ∨ climate = "hot") :
    calcDays rule storage climate =
      max 0 ((if storage = "room" ∨ storage = "cooldark"
              then rule.ripen_room_days.getD 0
              else rule.ripen_cool_days.getD 0) +
             (if climate = "hot" then -1
              else if climate = "cold" then 1 else 0)) ∧
    0 ≤ calcDays rule storage climate :=
  ⟨rfl, calcDays_nonneg rule storage climate⟩

/-- C3, witness. -/
theorem C3_witness :
    ("vegroom" = "room" ∨ "vegroom" = "cooldark" ∨ "vegroom" = "vegroom" ∨
      "vegroom" = "fridge") ∧
    ("hot" = "cold" ∨ "hot" = "normal" ∨ "hot" = "hot") ∧
    (calcDays demoRule ("vegroom") ("hot") =
      max 0 ((if ("vegroom" : String) = "room" ∨ ("vegroom" : String) = "cooldark"
              then demoRule.ripen_room_days.getD 0
              else demoRule.ripen_cool_days.getD 0) +
             (if ("hot" : String) = "hot" then -1
              else if ("hot" : String) = "cold" then 1 else 0)) ∧
     0 ≤ calcDays demoRule ("vegroom") ("hot")) :=
  ⟨Or.inr (Or.inr (Or.inl rfl)), Or.inr (Or.inr rfl),
    C3_calcDays_formula demoRule ("vegroom") ("hot")
      (Or.inr (Or.inr (Or.inl rfl))) (Or.inr (Or.inr rfl))⟩

/-- C4: for any valid intake date, with `days = calcDays …`, the dates
`ready = intake + days`, `windowStart = intake + max(0, days−1)` and
`windowEnd = intake + days + 1` satisfy
`intake ≤ windowStart ≤ ready ≤ windowEnd` (chronologically, via the day
ordinal). -/
theorem C4_window_invariants (rule : FruitRule) (body : Payload)
    (recDate : CalDate) (hv : recDate.Valid) (days : Int)
    (ready ws we : CalDate)
    (hd : days = calcDays rule body.storage body.climate)
    (hr : ready = addDays recDate days.toNat)
    (hws : ws = addDays recDate (calcWindowDays days).1.toNat)
    (hwe : we = addDays recDate (calcWindowDays days).2.toNat) :
    ord recDate ≤ ord ws ∧ ord ws ≤ ord ready ∧ ord ready ≤ ord we ∧
    ord ready = ord recDate + days.toNat ∧
    ord ws = ord recDate + (days - 1).toNat ∧
    ord we = ord recDate + (days + 1).toNat := by
  have h0 : 0 ≤ days := hd ▸ calcDays_nonneg rule body.storage body.climate
  subst hr hws hwe
  unfold calcWindowDays
  simp only [ord_addDays recDate hv]
  rcases eq_or_lt_of_le h0 with heq | hpos
  · rw [show max 0 (days - 1) = 0 from max_eq_left (by omega)]
    refine ⟨?_, ?_, ?_, ?_, ?_, ?_⟩ <;> first | trivial | omega
  · rw [show max 0 (days - 1) = days - 1 from max_eq_right (by omega)]
    refine ⟨?_, ?_, ?_, ?_, ?_, ?_⟩ <;> first | trivial | omega

/-- C4, witness: the Scenario A request. -/
theorem C4_witness :
    (⟨2024, 1, 1⟩ : CalDate).Valid ∧
    (ord ⟨2024, 1, 1⟩ ≤
      ord (addDays ⟨2024, 1, 1⟩
        (calcWindowDays (calcDays demoRule demoPayload.storage
          demoPayload.climate)).1.toNat) ∧
     ord (addDays ⟨2024, 1, 1⟩
        (calcWindowDays (calcDays demoRule demoPayload.storage
          demoPayload.climate)).1.toNat) ≤
      ord (addDays ⟨2024, 1, 1⟩
        (calcDays demoRule demoPayload.storage demoPayload.climate).toNat) ∧
     ord (addDays ⟨2024, 1, 1⟩
        (calcDays demoRule demoPayload.storage demoPayload.climate).toNat) ≤
      ord (addDays ⟨2024, 1, 1⟩
        (calcWindowDays (calcDays demoRule demoPayload.storage
          demoPayload.climate)).2.toNat) ∧
     ord (addDays ⟨2024, 1, 1⟩
        (calcDays demoRule demoPayload.storage demoPayload.climate).toNat) =
      ord ⟨2024, 1, 1⟩ +
        (calcDays demoRule demoPayload.storage demoPayload.climate).toNat ∧
     ord (addDays ⟨2024, 1, 1⟩
        (calcWindowDays (calcDays demoRule demoPayload.storage
          demoPayload.climate)).1.toNat) =
      ord ⟨2024, 1, 1⟩ +
        (calcDays demoRule demoPayload.storage demoPayload.climate - 1).toNat ∧
     ord (addDays ⟨2024, 1, 1⟩
        (calcWindowDays (calcDays demoRule demoPayload.storage
          demoPayload.climate)).2.toNat) =
      ord ⟨2024, 1, 1⟩ +
        (calcDays demoRule demoPayload.storage demoPayload.climate + 1).toNat) :=
  ⟨by decide,
    C4_window_invariants demoRule demoPayload ⟨2024, 1, 1⟩ (by decide)
      (calcDays demoRule demoPayload.storage demoPayload.climate)
      (addDays ⟨2024, 1, 1⟩
        (calcDays demoRule demoPayload.storage demoPayload.climate).toNat)
      (addDays ⟨2024, 1, 1⟩
        (calcWindowDays (calcDays demoRule demoPayload.storage
          demoPayload.climate)).1.toNat)
      (addDays ⟨2024, 1, 1⟩
        (calcWindowDays (calcDays demoRule demoPayload.storage
          demoPayload.climate)).2.toNat)
      rfl rfl rfl rfl⟩

/-- C5, counterexample: a storage value outside the enumeration
(`"banana"`) with a valid date and known sku is not rejected: the
request succeeds with status 200 and a ready date silently computed
from the cool bucket (cool-days 3, normal climate, 2024-01-01 →
2024-01-04), refuting "fails fast to a client error whenever … the
storage mode … is not one of the known enumeration values". -/
theorem C5_counterexample :
    (POST demoRules bananaStoragePayload GatewayOutcome.failure).isOk = true ∧
    (POST demoRules bananaStoragePayload GatewayOutcome.failure).readyDate?
      = some ("2024-01-04") :=
  ⟨rfl, rfl⟩

/-- C5, amended: a malformed intake date still fails fast to a client
error with no date arithmetic, but storage and climate are never
validated: with a valid date and resolved rule, any storage string
outside room/cool-dark is silently computed with the cool-storage
bucket and the request returns 200. -/
theorem C5_no_enum_validation (rules : List FruitRule)
    (body badBody : Payload) (g g2 : GatewayOutcome) (safe : String)
    (recDate : CalDate) (rule : FruitRule)
    (hbad : normalizeDate badBody.receivedAt = none)
    (hdate : normalizeDate body.receivedAt = some (safe, recDate))
    (hrule : findRule rules body.sku = some rule)
    (hs : ¬(body.storage = "room" ∨ body.storage = "cooldark")) :
    POST rules badBody g2 = ApiResponse.clientError dateErrorMsg ∧
    (POST rules body g).isOk = true ∧
    (POST rules body g).readyDate? =
      some (toIso (addDays recDate
        (max 0 (rule.ripen_cool_days.getD 0 +
          climateDelta body.climate)).toNat)) := by
  refine ⟨?_, ?_, ?_⟩
  · unfold POST
    rw [hbad]
  · rw [POST_ok rules body g safe recDate rule hdate hrule]
    rfl
  · rw [POST_ok rules body g safe recDate rule hdate hrule]
    show some (readyDateOf rule body recDate) = _
    unfold readyDateOf calcDays ripenBase
    rw [if_neg hs]

/-- C5, witness. -/
theorem C5_witness :
    normalizeDate badDatePayload.receivedAt = none ∧
    normalizeDate bananaStoragePayload.receivedAt
      = some ("2024-01-01", ⟨2024, 1, 1⟩) ∧
    findRule demoRules bananaStoragePayload.sku = some demoRule ∧
    ¬(bananaStoragePayload.storage = "room" ∨
      bananaStoragePayload.storage = "cooldark") ∧
    (POST demoRules badDatePayload GatewayOutcome.failure
        = ApiResponse.clientError dateErrorMsg ∧
     (POST demoRules bananaStoragePayload GatewayOutcome.failure).isOk = true ∧
     (POST demoRules bananaStoragePayload GatewayOutcome.failure).readyDate? =
       some (toIso (addDays ⟨2024, 1, 1⟩
         (max 0 (demoRule.ripen_cool_days.getD 0 +
           climateDelta bananaStoragePayload.climate)).toNat))) :=
  ⟨rfl, rfl, rfl, by decide,
    C5_no_enum_validation demoRules bananaStoragePayload badDatePayload
      GatewayOutcome.failure GatewayOutcome.failure ("2024-01-01")
      ⟨2024, 1, 1⟩ demoRule rfl rfl rfl (by decide)⟩

/-- C6, counterexample: the structural tier accepts
`{"summaryMd":42,"smartTips":7}` even though `summaryMd` is not a
string and `smartTips` is not an array of strings: the wrong-shaped
values land verbatim in the final advice instead of falling through to
the plain-text tier (which would have made the summary the raw string). -/
theorem C6_counterexample :
    ((POST demoRules demoPayload
        (GatewayOutcome.success (some rawWrongShape))).adviceVal?).map
      AdviceVal.summaryMd = some (Json.num 42) ∧
    ((POST demoRules demoPayload
        (GatewayOutcome.success (some rawWrongShape))).adviceVal?).map
      AdviceVal.smartTips = some (Json.num 7) :=
  ⟨rfl, rfl⟩

/-- C6, amended: the structural tier performs no shape validation.  Any
text starting with a brace that decodes to a value with a truthy
`summaryMd` member is accepted, its fields copied as-is (with `?? []` /
fallback-window defaults for absent ones), whatever their shapes; the
tier falls through only when decoding fails or `summaryMd` is
absent/falsy. -/
theorem C6_structural_tier_no_shape_check (a0 : AdviceVal) (raw : String)
    (fw : Json) (v j : Json)
    (hs : startsWithChar raw (Char.ofNat 123) = true)
    (hp : jsonParse raw = some v)
    (hf : getField v "summaryMd" = some j) (hj : jsTruthy j = true) :
    buildAdvice a0 raw fw =
      { summaryMd := j
        smartTips := nullishGet v "smartTips" (Json.arr [])
        risks := nullishGet v "risks" (Json.arr [])
        uses := nullishGet v "uses" (Json.arr [])
        ripenessWindow := nullishGet v "ripenessWindow" fw } :=
  buildAdvice_accept a0 raw fw v j (tierParsed_of_brace raw v hs hp) hf hj

/-- C6, witness: the wrong-shaped candidate is accepted as-is. -/
theorem C6_witness :
    startsWithChar rawWrongShape (Char.ofNat 123) = true ∧
    jsonParse rawWrongShape = some parsedWrongShape ∧
    getField parsedWrongShape "summaryMd" = some (Json.num 42) ∧
    jsTruthy (Json.num 42) = true ∧
    buildAdvice (initialAdvice ("a") ("b")) rawWrongShape Json.null =
      { summaryMd := Json.num 42
        smartTips := nullishGet parsedWrongShape "smartTips" (Json.arr [])
        risks := nullishGet parsedWrongShape "risks" (Json.arr [])
        uses := nullishGet parsedWrongShape "uses" (Json.arr [])
        ripenessWindow := nullishGet parsedWrongShape "ripenessWindow" Json.null } :=
  ⟨rfl, rfl, rfl, rfl,
    C6_structural_tier_no_shape_check (initialAdvice ("a") ("b")) rawWrongShape
      Json.null parsedWrongShape (Json.num 42) rfl rfl rfl rfl⟩

/-- C7: with a rule having room-days 5 and cool-days 3 and intake
2024-01-01, storage room with normal climate gives days 5, ready date
2024-01-06 and window [2024-01-05, 2024-01-07]; storage refrigerator
with hot climate gives days 2 and ready date 2024-01-03. -/
theorem C7_scenarios :
    calcDays demoRule ("room") ("normal") = 5 ∧
    (POST demoRules demoPayload GatewayOutcome.failure).readyDate?
      = some ("2024-01-06") ∧
    ((POST demoRules demoPayload GatewayOutcome.failure).adviceVal?).map
      AdviceVal.ripenessWindow
      = some (Json.obj [("start", Json.str ("2024-01-05")),
          ("end", Json.str ("2024-01-07"))]) ∧
    calcDays demoRule ("fridge") ("hot") = 2 ∧
    (POST demoRules fridgeHotPayload GatewayOutcome.failure).readyDate?
      = some ("2024-01-03") :=
  ⟨by decide, rfl, rfl, by decide, rfl⟩

/-- C8, counterexample: an accepted candidate's `smartTips` list with
seven entries, one of them blank, reaches the final result verbatim —
neither capped to five nor stripped of blanks — refuting "the
normalization step caps each of the … lists … and removes blank entries
before the Advice appears in the final result". -/
theorem C8_counterexample :
    ((POST demoRules demoPayload
        (GatewayOutcome.success (some rawSevenTips))).adviceVal?).map
      AdviceVal.smartTips
      = some (Json.arr [Json.str "a", Json.str "b", Json.str "c",
          Json.str "d", Json.str "e", Json.str "f", Json.str " "]) := rfl

/-- C8, amended: the `normalizeAi` helper of the sibling route variant
does cap its tips/risks/ideas lists to at most five entries and drops
blank ones, but the route that emits the final Advice copies the
accepted candidate's `smartTips`/`risks`/`uses` values as-is, with no
capping and no blank removal. -/
theorem C8_capping_only_in_normalizeAi (j : Json) (a0 : AdviceVal)
    (raw : String) (fw : Json) (v t : Json)
    (hs : startsWithChar raw (Char.ofNat 123) = true)
    (hp : jsonParse raw = some v)
    (hf : getField v "summaryMd" = some t) (ht : jsTruthy t = true) :
    ((normalizeAi j).tips.length ≤ 5 ∧ (normalizeAi j).risks.length ≤ 5 ∧
     (normalizeAi j).ideas.length ≤ 5 ∧
     (normalizeAi j).tips.all (fun s => !s.isEmpty) = true ∧
     (normalizeAi j).risks.all (fun s => !s.isEmpty) = true ∧
     (normalizeAi j).ideas.all (fun s => !s.isEmpty) = true) ∧
    (buildAdvice a0 raw fw).smartTips = nullishGet v "smartTips" (Json.arr []) ∧
    (buildAdvice a0 raw fw).risks = nullishGet v "risks" (Json.arr []) ∧
    (buildAdvice a0 raw fw).uses = nullishGet v "uses" (Json.arr []) := by
  have hacc := buildAdvice_accept a0 raw fw v t
    (tierParsed_of_brace raw v hs hp) hf ht
  exact ⟨normalizeAi_bounds j, by rw [hacc], by rw [hacc], by rw [hacc]⟩

/-- C8, witness. -/
theorem C8_witness :
    startsWithChar rawSevenTips (Char.ofNat 123) = true ∧
    jsonParse rawSevenTips = some parsedSevenTips ∧
    getField parsedSevenTips "summaryMd" = some (Json.str "s") ∧
    jsTruthy (Json.str "s") = true ∧
    (((normalizeAi sevenTipsObj).tips.length ≤ 5 ∧
      (normalizeAi sevenTipsObj).risks.length ≤ 5 ∧
      (normalizeAi sevenTipsObj).ideas.length ≤ 5 ∧
      (normalizeAi sevenTipsObj).tips.all (fun s => !s.isEmpty) = true ∧
      (normalizeAi sevenTipsObj).risks.all (fun s => !s.isEmpty) = true ∧
      (normalizeAi sevenTipsObj).ideas.all (fun s => !s.isEmpty) = true) ∧
     (buildAdvice (initialAdvice ("a") ("b")) rawSevenTips Json.null).smartTips
       = nullishGet parsedSevenTips "smartTips" (Json.arr []) ∧
     (buildAdvice (initialAdvice ("a") ("b")) rawSevenTips Json.null).risks
       = nullishGet parsedSevenTips "risks" (Json.arr []) ∧
     (buildAdvice (initialAdvice ("a") ("b")) rawSevenTips Json.null).uses
       = nullishGet parsedSevenTips "uses" (Json.arr [])) :=
  ⟨rfl, rfl, rfl, rfl,
    C8_capping_only_in_normalizeAi sevenTipsObj (initialAdvice ("a") ("b"))
      rawSevenTips Json.null parsedSevenTips (Json.str "s") rfl rfl rfl rfl⟩

/-- C9: a rule missing the day count for the selected bucket is treated
as 0 days (`?? 0`), so the day count is 0 under normal or hot climate
and 1 under cold, instead of the request failing. -/
theorem C9_missing_day_counts (rule1 rule2 : FruitRule)
    (s1 s2 climate : String)
    (h1 : rule1.ripen_room_days = none) (hs1 : s1 = "room" ∨ s1 = "cooldark")
    (h2 : rule2.ripen_cool_days = none)
    (hs2 : ¬(s2 = "room" ∨ s2 = "cooldark")) :
    calcDays rule1 s1 climate = (if climate = "cold" then 1 else 0) ∧
    calcDays rule2 s2 climate = (if climate = "cold" then 1 else 0) := by
  unfold calcDays ripenBase climateDelta
  rw [if_pos hs1, if_neg hs2, h1, h2]
  constructor <;>
    (by_cases hh : climate = "hot"
     · subst hh
       decide
     · by_cases hc : climate = "cold"
       · subst hc
         decide
       · simp only [if_neg hh, if_neg hc]
         decide)

/-- C9, witness: both buckets of `bareRule` are absent. -/
theorem C9_witness :
    bareRule.ripen_room_days = none ∧
    ("room" = "room" ∨ "room" = "cooldark") ∧
    bareRule.ripen_cool_days = none ∧
    ¬(("vegroom" : String) = "room" ∨ ("vegroom" : String) = "cooldark") ∧
    (calcDays bareRule ("room") ("cold")
        = (if ("cold" : String) = "cold" then 1 else 0) ∧
     calcDays bareRule ("vegroom") ("cold")
        = (if ("cold" : String) = "cold" then 1 else 0)) :=
  ⟨rfl, Or.inl rfl, rfl, by decide,
    C9_missing_day_counts bareRule bareRule ("room") ("vegroom") ("cold")
      rfl (Or.inl rfl) rfl (by decide)⟩

/-- C10, counterexample: an accepted candidate may supply a
`ripenessWindow` that is not an object at all (here the number 7); it
replaces the fallback as-is, so the final advice's window has no start
and end dates, refuting "the Advice object in the response always
contains a window with start and end dates". -/
theorem C10_counterexample :
    ((POST demoRules demoPayload
        (GatewayOutcome.success (some rawNumWindow))).adviceVal?).map
      AdviceVal.ripenessWindow = some (Json.num 7) := rfl

/-- C10, amended: the advice always carries some `ripenessWindow` value:
it is the initial computed fallback, kept when the gateway fails and when
the reply is prose, and for an accepted candidate it becomes
`candidate.ripenessWindow ?? fallback` — the override is used as-is, with
no check that it carries start and end dates. -/
theorem C10_window_policy (a0 : AdviceVal) (fw : Json) (raw rawP : String)
    (v : Json) (hacc : tierParsed raw = some v)
    (ht : truthyField (some v) ("summaryMd") = true)
    (hprose : truthyField (tierParsed rawP) ("summaryMd") = false) :
    (advisoryResult a0 fw GatewayOutcome.failure).ripenessWindow
      = a0.ripenessWindow ∧
    (buildAdvice a0 rawP fw).ripenessWindow = a0.ripenessWindow ∧
    (buildAdvice a0 raw fw).ripenessWindow = nullishGet v "ripenessWindow" fw := by
  obtain ⟨j, hf, hj⟩ := truthyField_elim v ("summaryMd") ht
  have hparsed : tierParsed raw = some v := hacc
  refine ⟨rfl, ?_, ?_⟩
  · cases he : rawP.isEmpty with
    | true => rw [buildAdvice_empty a0 rawP fw hprose he]
    | false => rw [buildAdvice_prose a0 rawP fw hprose he]
  · rw [buildAdvice_accept a0 raw fw v j hparsed hf hj]

/-- C10, witness. -/
theorem C10_witness :
    tierParsed rawNumWindow = some parsedNumWindow ∧
    truthyField (some parsedNumWindow) ("summaryMd") = true ∧
    truthyField (tierParsed proseRaw) ("summaryMd") = false ∧
    ((advisoryResult (initialAdvice ("a") ("b")) (Json.str "w")
        GatewayOutcome.failure).ripenessWindow
      = (initialAdvice ("a") ("b")).ripenessWindow ∧
     (buildAdvice (initialAdvice ("a") ("b")) proseRaw
        (Json.str "w")).ripenessWindow
      = (initialAdvice ("a") ("b")).ripenessWindow ∧
     (buildAdvice (initialAdvice ("a") ("b")) rawNumWindow
        (Json.str "w")).ripenessWindow
      = nullishGet parsedNumWindow "ripenessWindow" (Json.str "w")) :=
  ⟨rfl, rfl, rfl,
    C10_window_policy (initialAdvice ("a") ("b")) (Json.str "w") rawNumWindow
      proseRaw parsedNumWindow rfl rfl rfl⟩

end Nipponfruit
